import Mathlib

/-!
Verification of the waste-collection extraction pipeline.

This file gives a shallow embedding of the pipeline sources:
`website_scraper.py` (`scrape_url_get_html`), `html_to_json.py`
(`format_collection_date`, `parse_to_json`), `beautify_json.py`
(`beautify`) and `main.py` (`main`), and proves properties about it.

Conventions of the embedding:
* Python strings are `String`; the Python character classes used by the
  two regular expressions (`\w`, `\s`, `\d`) are modelled over ASCII,
  which covers every character the pipeline itself produces or tests.
* Python dicts with string keys are association lists with the usual
  dict semantics (`dictSet` updates in place or appends).
* `datetime.date` is a `Date` structure; `date.toordinal` is the
  standard proleptic-Gregorian ordinal, so differences of ordinals are
  the `.days` of Python timedelta between dates.
* Exceptions are `Except Unit`; a caught exception corresponds to the
  `Except.error` branch of the modelled computation.
* `datetime.now()` is passed in explicitly as the `now : Date` argument.
-/

namespace Waste

/-! ### Python string primitives (ASCII fragment) -/

/-- Python regular-expression class `\s`: the six ASCII whitespace characters. -/
def isPySpace (c : Char) : Bool :=
  c == ' ' || c == '\t' || c == '\n' || c == '\r' || c == '\x0b' || c == '\x0c'

/-- Python regular-expression class `\w` (ASCII fragment): letters, digits, underscore. -/
def isWordChar (c : Char) : Bool :=
  c.isAlphanum || c == '_'

/-- Python `str.strip()`: drop leading and trailing whitespace. -/
def pyStrip (s : String) : String :=
  String.mk (((s.data.dropWhile isPySpace).reverse.dropWhile isPySpace).reverse)

/-- Python `str.lower()` (ASCII). -/
def pyLower (s : String) : String :=
  String.mk (s.data.map Char.toLower)

/-- Python `str.upper()` (ASCII). -/
def pyUpper (s : String) : String :=
  String.mk (s.data.map Char.toUpper)

/-- Python slicing `s[:n]`. -/
def strTake (n : Nat) (s : String) : String :=
  String.mk (s.data.take n)

def pyTitleAux : Bool → List Char → List Char
  | _, [] => []
  | prevCased, c :: cs =>
    (if c.isAlpha then (if prevCased then c.toLower else c.toUpper) else c)
      :: pyTitleAux c.isAlpha cs

/-- Python `str.title()` (ASCII): first letter of each cased run uppercased,
the rest lowercased; uncased characters separate runs. -/
def pyTitle (s : String) : String :=
  String.mk (pyTitleAux false s.data)

/-- Python `int()` on a string of decimal digits. -/
def natOfDigits (cs : List Char) : Nat :=
  cs.foldl (fun a c => 10 * a + (c.toNat - 48)) 0

/-! ### Calendar model (`datetime.date`) -/

/-- Gregorian leap-year rule, as used by `datetime`. -/
def isLeap (y : Nat) : Bool :=
  (y % 4 == 0 && y % 100 != 0) || y % 400 == 0

def monthLengths (leap : Bool) : List Nat :=
  [31, if leap then 29 else 28, 31, 30, 31, 30, 31, 31, 30, 31, 30, 31]

def daysInMonth (y m : Nat) : Nat :=
  (monthLengths (isLeap y)).getD (m - 1) 0

def daysBeforeMonth (y m : Nat) : Nat :=
  ((monthLengths (isLeap y)).take (m - 1)).foldl (· + ·) 0

/-- A calendar date, as `datetime.date(year, month, day)`. -/
structure Date where
  year : Nat
  month : Nat
  day : Nat
deriving DecidableEq, Repr

/-- Date construction with the validation `datetime` performs: `none` models
the `ValueError` raised for an out-of-range month or day. -/
def mkValidDate (y m d : Nat) : Option Date :=
  if 1 ≤ m && m ≤ 12 && 1 ≤ d && d ≤ daysInMonth y m then some ⟨y, m, d⟩ else none

/-- Python `date.toordinal()`: day count in the proleptic Gregorian calendar,
with `date(1,1,1).toordinal() = 1`. -/
def toordinal (dt : Date) : Nat :=
  let y := dt.year - 1
  365 * y + y / 4 - y / 100 + y / 400 + daysBeforeMonth dt.year dt.month + dt.day

/-- `(a - b).days` for two `datetime.date` values. -/
def dateDiff (a b : Date) : Int :=
  (toordinal a : Int) - (toordinal b : Int)

def monthAbbrevs : List String :=
  ["Jan", "Feb", "Mar", "Apr", "May", "Jun", "Jul", "Aug", "Sep", "Oct", "Nov", "Dec"]

def monthFulls : List String :=
  ["January", "February", "March", "April", "May", "June",
   "July", "August", "September", "October", "November", "December"]

def monthNum (names : List String) (m : String) : Option Nat :=
  (names.findIdx? (fun x => x == m)).map (· + 1)

/-- `datetime.strptime(f"{day} {month} {year}", "%d %b %Y")`, falling back to
`"%d %B %Y"` as the source's loop over the two formats does. The month string
is compared against the canonical capitalisation, which is exact because the
source title-cases the month before parsing. `none` models `ValueError`. -/
def strptimeDayMon (dayStr month : String) (year : Nat) : Option Date :=
  let d := natOfDigits dayStr.data
  match monthNum monthAbbrevs month with
  | some m => mkValidDate year m d
  | none =>
    match monthNum monthFulls month with
    | some m => mkValidDate year m d
    | none => none

/-! ### `html_to_json.format_collection_date` -/

def weekdayNames : List String :=
  ["Monday", "Tuesday", "Wednesday", "Thursday", "Friday", "Saturday", "Sunday"]

/-- The regex alternation `(Monday|Tuesday|...|Sunday)` at the start of the
input: the first listed name that is a prefix wins (no two names are prefixes
of one another, so the order is immaterial). -/
def tryNames : List String → List Char → Option (String × List Char)
  | [], _ => none
  | n :: ns, cs =>
    if n.data.isPrefixOf cs then some (n, cs.drop n.length) else tryNames ns cs

/-- `re.match(r"^(Monday|...|Sunday)\s+(\d{1,2})\s+(\w+)$", raw)`.

Greedy matching with backtracking collapses as follows: after the weekday
alternation, `\s+` takes the maximal whitespace run (at least one); `\d{1,2}`
with a following `\s+` succeeds exactly when the maximal digit run has length
1 or 2 (a longer run leaves a digit where whitespace is required, for either
choice of 1 or 2 digits); `(\w+)$` takes the maximal word run, and `$` in
Python matches at the end of the string or just before a final newline. -/
def fcdMatch (raw : String) : Option (String × Nat × String) :=
  match tryNames weekdayNames raw.data with
  | none => none
  | some (wd, rest1) =>
    let (sp1, rest2) := rest1.span isPySpace
    if sp1.isEmpty then none else
    let (dgs, rest3) := rest2.span Char.isDigit
    if dgs.length == 0 || 2 < dgs.length then none else
    let (sp2, rest4) := rest3.span isPySpace
    if sp2.isEmpty then none else
    let (w3, rest5) := rest4.span isWordChar
    if w3.isEmpty then none else
    if rest5 == [] || rest5 == ['\n'] then
      some (wd, natOfDigits dgs, String.mk w3)
    else none

/-- The ordinal-suffix computation of `format_collection_date`
(`html_to_json.py` lines 50–53). -/
def ordinalSuffix (day : Nat) : String :=
  if 11 ≤ day ∧ day ≤ 13 then "th"
  else
    match day % 10 with
    | 1 => "st"
    | 2 => "nd"
    | 3 => "rd"
    | _ => "th"

/-- `html_to_json.format_collection_date`. -/
def format_collection_date (raw : String) : String :=
  match fcdMatch raw with
  | none => raw
  | some (weekday, day, month) =>
    weekday ++ ", " ++ toString day ++ ordinalSuffix day ++ " " ++ pyUpper (strTake 3 month)

/-! ### `html_to_json.parse_to_json`

The HTML fragment is consumed only through three BeautifulSoup queries, so
it is embedded as the structure those queries observe:
`soup.select(".rubbish_date_wrap")` yields the list of blocks; within a
block, `select_one("[class*=rubbish_collection_difs_]")` yields the header
element (embedded by its joined class string, `" ".join(classes)`), and
`select_one(".rubbish_date_container_left_datetext")` yields the date
element (embedded by its `get_text(strip=True)` text). -/

/-- One `.rubbish_date_wrap` result block, as observed by `parse_to_json`. -/
structure Block where
  /-- Joined class string of the first `[class*=rubbish_collection_difs_]`
  descendant; `none` when the block has no such element. -/
  headerClassStr : Option String
  /-- Stripped text of the first `.rubbish_date_container_left_datetext`
  descendant; `none` when the block has no such element. -/
  dateText : Option String
deriving DecidableEq, Repr

/-- The HTML string handed to `parse_to_json`, abstracted to what
`BeautifulSoup` extracts from it. `raises` stands for an input on which the
body of the `try` block raises, exercising the generic `except` fallback. -/
inductive Html where
  | frag (blocks : List Block)
  | raises
deriving DecidableEq, Repr

/-- Python `needle in haystack` on strings: substring containment. -/
def isSubstr (needle hay : List Char) : Bool :=
  match hay with
  | [] => needle.isEmpty
  | _ :: t => needle.isPrefixOf hay || isSubstr needle t

/-- The `mapping` dict of `parse_to_json`. -/
def categoryMapping : List (String × String) :=
  [("rubbish_collection_difs_black", "Rubbish"),
   ("rubbish_collection_difs_green", "Recycling"),
   ("rubbish_collection_difs_purple", "Food")]

/-- Python `d[k] = v` on a string-keyed dict: update the existing entry in
place, or append a new one. -/
def dictSet (d : List (String × String)) (k v : String) : List (String × String) :=
  if d.any (fun p => p.1 == k) then
    d.map (fun p => if p.1 == k then (k, v) else p)
  else d ++ [(k, v)]

/-- The inner `for css_class, key in mapping.items()` loop of
`parse_to_json`, run over one block's class string and date text. -/
def applyMapping (classStr rawDate : String) (acc : List (String × String)) :
    List (String × String) :=
  categoryMapping.foldl
    (fun a p => if isSubstr p.1.data classStr.data then dictSet a p.2 (format_collection_date rawDate) else a)
    acc

/-- The body of `for block in blocks`: blocks missing the header or the date
element are skipped. -/
def processBlock (acc : List (String × String)) (b : Block) : List (String × String) :=
  match b.headerClassStr, b.dateText with
  | some classStr, some rawDate => applyMapping classStr rawDate acc
  | _, _ => acc

/-- `html_to_json.parse_to_json`. -/
def parse_to_json (html : Html) : List (String × String) :=
  match html with
  | Html.raises => [("Error", "Exception")]
  | Html.frag blocks =>
    if blocks.isEmpty then [("Error", "Invalid HTML")]
    else
      let result := blocks.foldl processBlock []
      if result.isEmpty then [("Error", "JSON Mapping")]
      else result

/-- Whether a block carries one of the three known category markers
(regardless of whether it also has a date element). -/
def matchesKnownMarker (b : Block) : Bool :=
  match b.headerClassStr with
  | some classStr => categoryMapping.any (fun p => isSubstr p.1.data classStr.data)
  | none => false

/-- Whether a block contributes an entry to the result dict: it needs a
header, a date element, and a recognized marker. -/
def blockContributes (b : Block) : Bool :=
  match b.headerClassStr, b.dateText with
  | some classStr, some _ => categoryMapping.any (fun p => isSubstr p.1.data classStr.data)
  | _, _ => false

/-! ### `beautify_json.beautify`

The council-format regex is
`re.search(r"(\w+),\s+(\d{1,2})(st|nd|rd|th)\s+(\w+)", text)`.
`re.search` tries each start position from the left; at a given position,
greedy matching with backtracking collapses as in `fcdMatch`: the first
`(\w+)` must be the maximal word run (a shorter one is still followed by a
word character, never by the required comma), `\d{1,2}` followed by the
suffix alternation succeeds exactly when the maximal digit run has length 1
or 2 and the suffix literal follows it, and the final `(\w+)` is the maximal
word run, with anything allowed after it (the pattern is unanchored). -/

/-- The `(st|nd|rd|th)` alternation, tried in order at the head of the input. -/
def suffixAlt (cs : List Char) : Option (String × List Char) :=
  if ['s', 't'].isPrefixOf cs then some ("st", cs.drop 2)
  else if ['n', 'd'].isPrefixOf cs then some ("nd", cs.drop 2)
  else if ['r', 'd'].isPrefixOf cs then some ("rd", cs.drop 2)
  else if ['t', 'h'].isPrefixOf cs then some ("th", cs.drop 2)
  else none

/-- One attempt of the council regex at a fixed start position; the groups
are (weekday, day, suffix, month). -/
def councilMatchAt (cs : List Char) : Option (String × String × String × String) :=
  let (w1, r1) := cs.span isWordChar
  if w1.isEmpty then none else
  match r1 with
  | ',' :: r2 =>
    let (sp1, r3) := r2.span isPySpace
    if sp1.isEmpty then none else
    let (dgs, r4) := r3.span Char.isDigit
    if dgs.length == 0 || 2 < dgs.length then none else
    match suffixAlt r4 with
    | none => none
    | some (suf, r5) =>
      let (sp2, r6) := r5.span isPySpace
      if sp2.isEmpty then none else
      let (w4, _) := r6.span isWordChar
      if w4.isEmpty then none
      else some (String.mk w1, String.mk dgs, suf, String.mk w4)
  | _ => none

/-- `re.search` with the council pattern: leftmost successful start position. -/
def councilSearch : List Char → Option (String × String × String × String)
  | [] => none
  | c :: cs =>
    match councilMatchAt (c :: cs) with
    | some g => some g
    | none => councilSearch cs

/-- Lines 73–81 of `beautify_json.py`: title-case the month group and run
`strptime` over the two formats with the current year. -/
def councilTarget (year : Nat) (dayStr monthStr : String) : Option Date :=
  strptimeDayMon dayStr (pyTitle monthStr) year

/-- Lines 87–89 of `beautify_json.py`: the year-rollover correction. When the
constructed date is more than 30 days before `now`, rebuild it with year+1;
`Except.error` models the `ValueError` that `date.replace` raises when the
rebuilt date does not exist (29 February of a non-leap year), which escapes
to `beautify`'s outer `except`. -/
def rolloverAdjust (now target : Date) : Except Unit Date :=
  if dateDiff target now < -30 then
    match mkValidDate (now.year + 1) target.month target.day with
    | some t => Except.ok t
    | none => Except.error ()
  else Except.ok target

/-- The per-value transformation of `beautify`'s loop body on a string value
(`beautify_json.py` lines 59–99). -/
def beautifyValue (now : Date) (value : String) : Except Unit String :=
  let text := pyStrip value
  if pyLower text == "today" then Except.ok "Today"
  else
    match councilSearch text.data with
    | none => Except.ok value
    | some (weekdayFull, dayStr, suffix, monthStr) =>
      match councilTarget now.year dayStr monthStr with
      | none => Except.ok value
      | some target0 =>
        (rolloverAdjust now target0).map (fun target =>
          let diff := dateDiff target now
          let weekdayShort := strTake 3 weekdayFull
          if diff == 0 then "Today"
          else if diff == 1 then "Tomorrow"
          else toString diff ++ " Days (" ++ weekdayShort ++ " " ++ dayStr ++ suffix ++ ")")

/-- A Python value as they occur around the pipeline: strings, numbers,
`None`, lists and string-keyed dicts. -/
inductive PyVal where
  | str (s : String)
  | int (n : Int)
  | pyNone
  | list (xs : List PyVal)
  | dict (entries : List (String × PyVal))
deriving Repr

/-- `isinstance(value, str)` dispatch of the loop body: non-string values are
copied over unchanged, string values go through `beautifyValue`. -/
def transformVal (now : Date) (v : PyVal) : Except Unit PyVal :=
  match v with
  | PyVal.str s => (beautifyValue now s).map PyVal.str
  | other => Except.ok other

/-- The `for key, value in input_data.items()` loop, building the fresh
`output` dict; an exception aborts the whole loop. -/
def beautifyEntries (now : Date) : List (String × PyVal) → Except Unit (List (String × PyVal))
  | [] => Except.ok []
  | (k, v) :: rest =>
    match transformVal now v with
    | Except.error e => Except.error e
    | Except.ok v' =>
      match beautifyEntries now rest with
      | Except.error e => Except.error e
      | Except.ok out => Except.ok ((k, v') :: out)

/-- `beautify_json.beautify`: non-dict input is returned unchanged, and any
exception raised while processing returns the original input object. -/
def beautify (now : Date) (input : PyVal) : PyVal :=
  match input with
  | PyVal.dict entries =>
    match beautifyEntries now entries with
    | Except.ok out => PyVal.dict out
    | Except.error _ => input
  | other => other

/-- The CanonicalDateToken grammar, following the spec's wording: the exact
shape "<Weekday>, <Day><Suffix> <MON>" with Weekday a full English weekday
name, Day 1–31 without a leading zero, Suffix the standard ordinal suffix of
Day, and MON a 3-letter uppercase month abbreviation. The council regex used
by `beautifyValue` is strictly looser than this grammar: it accepts any word
as the weekday, any 1–2 digit day, any suffix from the alternation, and any
word (for example a full month name) in the month position. -/
def isCanonicalDateToken (s : String) : Bool :=
  (List.range 31).any fun d0 =>
    let d := d0 + 1
    let suf :=
      if d = 11 ∨ d = 12 ∨ d = 13 then "th"
      else if d % 10 = 1 then "st"
      else if d % 10 = 2 then "nd"
      else if d % 10 = 3 then "rd"
      else "th"
    weekdayNames.any fun wd =>
      monthAbbrevs.any fun mon =>
        s == wd ++ ", " ++ toString d ++ suf ++ " " ++ pyUpper mon

/-! ### `website_scraper.scrape_url_get_html` and `main.main` -/

/-- Outcome of the browser-automation session, which is external I/O: the
page either yields an HTML fragment, or one of the three waits raises
`PlaywrightTimeoutError`, or some other exception is raised. -/
inductive ScrapeOutcome where
  | success (html : Html)
  | timeout
  | failure
deriving DecidableEq, Repr

/-- The scraper's return type `Union[str, Dict[str, str]]`; the HTML string
is carried in its `Html` abstraction for consumption by `parse_to_json`. -/
inductive PyResult where
  | htmlStr (h : Html)
  | errDict (entries : List (String × String))
deriving DecidableEq, Repr

/-- `website_scraper.scrape_url_get_html` (lines 79–87): the success value,
or `{"Error": "Browser"}` on a timeout, or `{"Error": "Unknown"}` on any
other exception. -/
def scrape_url_get_html (env : ScrapeOutcome) : PyResult :=
  match env with
  | ScrapeOutcome.success h => PyResult.htmlStr h
  | ScrapeOutcome.timeout => PyResult.errDict [("Error", "Browser")]
  | ScrapeOutcome.failure => PyResult.errDict [("Error", "Unknown")]

/-- A string-valued dict as a `PyVal`. -/
def strDict (d : List (String × String)) : PyVal :=
  PyVal.dict (d.map (fun p => (p.1, PyVal.str p.2)))

/-- `main.main`: the value handed to `show_result`. A dict from the scraper
is displayed directly (lines 67–74); otherwise the HTML goes through
`parse_to_json` and then `beautify` (lines 76–86). -/
def main (env : ScrapeOutcome) (now : Date) : PyVal :=
  match scrape_url_get_html env with
  | PyResult.errDict e => strDict e
  | PyResult.htmlStr h => beautify now (strDict (parse_to_json h))

/-! ### Helper lemmas about the extractor's result dict -/

theorem mem_dictSet {d : List (String × String)} {k v : String} {p : String × String}
    (h : p ∈ dictSet d k v) : p = (k, v) ∨ p ∈ d := by
  unfold dictSet at h
  split at h
  · rcases List.mem_map.mp h with ⟨q, hq, hfq⟩
    split at hfq
    · left; exact hfq.symm
    · right; exact hfq ▸ hq
  · rcases List.mem_append.mp h with h1 | h1
    · right; exact h1
    · left; simpa using h1

theorem dictSet_ne_nil (d : List (String × String)) (k v : String) : dictSet d k v ≠ [] := by
  unfold dictSet
  split
  · rename_i hany
    intro hnil
    rw [List.map_eq_nil_iff] at hnil
    subst hnil
    simp at hany
  · simp

theorem mem_foldl_mapping (cls f : String) (l : List (String × String)) :
    ∀ (acc : List (String × String)) (p : String × String),
      p ∈ l.foldl (fun a q => if isSubstr q.1.data cls.data then dictSet a q.2 f else a) acc →
      p ∈ acc ∨ p.1 ∈ l.map Prod.snd := by
  induction l with
  | nil => exact fun acc p h => Or.inl h
  | cons q l ih =>
    intro acc p h
    rw [List.foldl_cons] at h
    rcases ih _ p h with h1 | h1
    · split at h1
      · rcases mem_dictSet h1 with h2 | h2
        · right; rw [h2]; exact List.mem_cons_self _ _
        · left; exact h2
      · left; exact h1
    · right; exact List.mem_cons_of_mem _ h1

theorem foldl_mapping_ne_nil (cls f : String) (l : List (String × String)) :
    ∀ acc, acc ≠ [] →
      l.foldl (fun a q => if isSubstr q.1.data cls.data then dictSet a q.2 f else a) acc ≠ [] := by
  induction l with
  | nil => exact fun acc h => h
  | cons q l ih =>
    intro acc h
    rw [List.foldl_cons]
    apply ih
    split
    · exact dictSet_ne_nil _ _ _
    · exact h

theorem foldl_mapping_ne_nil_of_any (cls f : String) (l : List (String × String)) :
    ∀ acc, l.any (fun q => isSubstr q.1.data cls.data) = true →
      l.foldl (fun a q => if isSubstr q.1.data cls.data then dictSet a q.2 f else a) acc ≠ [] := by
  induction l with
  | nil => intro acc h; simp at h
  | cons q l ih =>
    intro acc h
    rw [List.foldl_cons]
    by_cases hq : isSubstr q.1.data cls.data
    · rw [if_pos hq]
      exact foldl_mapping_ne_nil cls f l _ (dictSet_ne_nil _ _ _)
    · rw [if_neg hq]
      apply ih
      simpa [hq] using h

theorem foldl_mapping_id (cls f : String) (l : List (String × String)) :
    ∀ acc, (∀ q ∈ l, isSubstr q.1.data cls.data = false) →
      l.foldl (fun a q => if isSubstr q.1.data cls.data then dictSet a q.2 f else a) acc = acc := by
  induction l with
  | nil => exact fun acc _ => rfl
  | cons q l ih =>
    intro acc h
    rw [List.foldl_cons, if_neg (by simp [h q (List.mem_cons_self _ _)])]
    exact ih _ (fun q' hq' => h q' (List.mem_cons_of_mem _ hq'))

theorem mem_processBlock {acc : List (String × String)} {b : Block} {p : String × String}
    (h : p ∈ processBlock acc b) : p ∈ acc ∨ p.1 ∈ ["Rubbish", "Recycling", "Food"] := by
  obtain ⟨hc, hd⟩ := b
  cases hc with
  | none => exact Or.inl h
  | some classStr =>
    cases hd with
    | none => exact Or.inl h
    | some rawDate =>
      unfold processBlock applyMapping at h
      rcases mem_foldl_mapping classStr (format_collection_date rawDate) categoryMapping _ _ h with
        h1 | h1
      · exact Or.inl h1
      · right; simpa [categoryMapping] using h1

theorem processBlock_eq_of_not_contributes {acc : List (String × String)} {b : Block}
    (h : blockContributes b = false) : processBlock acc b = acc := by
  obtain ⟨hc, hd⟩ := b
  cases hc with
  | none => rfl
  | some classStr =>
    cases hd with
    | none => rfl
    | some rawDate =>
      unfold blockContributes at h
      rw [List.any_eq_false] at h
      unfold processBlock applyMapping
      exact foldl_mapping_id _ _ _ _ (fun q hq => by simpa using h q hq)

theorem processBlock_ne_nil_of_contributes {acc : List (String × String)} {b : Block}
    (h : blockContributes b = true) : processBlock acc b ≠ [] := by
  obtain ⟨hc, hd⟩ := b
  cases hc with
  | none => exact absurd h (by simp [blockContributes])
  | some classStr =>
    cases hd with
    | none => exact absurd h (by simp [blockContributes])
    | some rawDate =>
      unfold blockContributes at h
      unfold processBlock applyMapping
      exact foldl_mapping_ne_nil_of_any _ _ _ _ h

theorem processBlock_ne_nil_of_ne_nil {acc : List (String × String)} {b : Block}
    (h : acc ≠ []) : processBlock acc b ≠ [] := by
  obtain ⟨hc, hd⟩ := b
  cases hc with
  | none => exact h
  | some classStr =>
    cases hd with
    | none => exact h
    | some rawDate => exact foldl_mapping_ne_nil _ _ _ _ h

theorem mem_foldl_processBlock (blocks : List Block) :
    ∀ (acc : List (String × String)) (p : String × String),
      p ∈ blocks.foldl processBlock acc → p ∈ acc ∨ p.1 ∈ ["Rubbish", "Recycling", "Food"] := by
  induction blocks with
  | nil => exact fun acc p h => Or.inl h
  | cons b bs ih =>
    intro acc p h
    rw [List.foldl_cons] at h
    rcases ih _ p h with h1 | h1
    · exact mem_processBlock h1
    · exact Or.inr h1

theorem blocks_foldl_ne_nil (blocks : List Block) :
    ∀ acc, acc ≠ [] → blocks.foldl processBlock acc ≠ [] := by
  induction blocks with
  | nil => exact fun acc h => h
  | cons b bs ih =>
    intro acc h
    rw [List.foldl_cons]
    exact ih _ (processBlock_ne_nil_of_ne_nil h)

theorem blocks_foldl_ne_nil_of_exists (blocks : List Block) :
    ∀ acc, (∃ b ∈ blocks, blockContributes b = true) → blocks.foldl processBlock acc ≠ [] := by
  induction blocks with
  | nil => intro acc h; simp at h
  | cons b bs ih =>
    intro acc h
    rw [List.foldl_cons]
    rcases h with ⟨b', hb', hc'⟩
    rcases List.mem_cons.mp hb' with rfl | hmem
    · exact blocks_foldl_ne_nil bs _ (processBlock_ne_nil_of_contributes hc')
    · exact ih _ ⟨b', hmem, hc'⟩

theorem blocks_foldl_id (blocks : List Block) :
    ∀ acc, (∀ b ∈ blocks, blockContributes b = false) → blocks.foldl processBlock acc = acc := by
  induction blocks with
  | nil => exact fun acc _ => rfl
  | cons b bs ih =>
    intro acc h
    rw [List.foldl_cons, processBlock_eq_of_not_contributes (h b (List.mem_cons_self _ _))]
    exact ih _ (fun b' hb' => h b' (List.mem_cons_of_mem _ hb'))

/-- Classification of the extractor's error codes: any `{"Error": c}` record
returned by `parse_to_json` carries one of its three literal codes. -/
theorem parse_error_code {h : Html} {c : String}
    (heq : parse_to_json h = [("Error", c)]) :
    c = "Invalid HTML" ∨ c = "JSON Mapping" ∨ c = "Exception" := by
  cases h with
  | raises =>
    simp only [parse_to_json] at heq
    injection heq with h1 h2
    injection h1 with ha hb
    exact Or.inr (Or.inr hb.symm)
  | frag blocks =>
    simp only [parse_to_json] at heq
    by_cases hb0 : blocks.isEmpty = true
    · rw [if_pos hb0] at heq
      injection heq with h1 h2
      injection h1 with ha hb
      exact Or.inl hb.symm
    · rw [if_neg hb0] at heq
      by_cases hr : (blocks.foldl processBlock []).isEmpty = true
      · rw [if_pos hr] at heq
        injection heq with h1 h2
        injection h1 with ha hb
        exact Or.inr (Or.inl hb.symm)
      · rw [if_neg hr] at heq
        exfalso
        have hmem : ("Error", c) ∈ blocks.foldl processBlock [] := by
          rw [heq]
          exact List.mem_cons_self _ _
        rcases mem_foldl_processBlock blocks [] _ hmem with h1 | h1
        · simp at h1
        · simp at h1

theorem isEmpty_false_of_ne_nil {α : Type} {l : List α} (h : l ≠ []) : l.isEmpty = false := by
  cases l with
  | nil => exact absurd rfl h
  | cons a t => rfl

theorem mkValidDate_eq {y m d : Nat} {t : Date} (h : mkValidDate y m d = some t) :
    t = ⟨y, m, d⟩ := by
  unfold mkValidDate at h
  split at h
  · injection h with h1
    exact h1.symm
  · cases h

/-! ### Claims -/

/-- C1 counterexample: the Extractor's generic exception fallback
(`html_to_json.py` line 140) returns the code "Exception", which is not in
the claimed set {"Browser", "Unknown", "Invalid HTML", "JSON Mapping"}. -/
theorem extractor_fallback_code_not_in_spec_set :
    parse_to_json Html.raises = [("Error", "Exception")] ∧
    "Exception" ∉ (["Browser", "Unknown", "Invalid HTML", "JSON Mapping"] : List String) := by
  decide

/-- C1 (amended): every ErrorRecord is a single-key mapping {"Error": code};
the Scraper's codes are "Browser" and "Unknown", while the Extractor's codes
are "Invalid HTML", "JSON Mapping" and "Exception" — the Extractor's generic
exception fallback reports "Exception", a code outside the spec's set. -/
theorem error_codes_by_stage :
    (∀ (env : ScrapeOutcome) (c : String),
      scrape_url_get_html env = PyResult.errDict [("Error", c)] →
        c = "Browser" ∨ c = "Unknown") ∧
    (∀ (h : Html) (c : String),
      parse_to_json h = [("Error", c)] →
        c = "Invalid HTML" ∨ c = "JSON Mapping" ∨ c = "Exception") := by
  constructor
  · intro env c hc
    cases env with
    | success h => exact absurd hc (by simp [scrape_url_get_html])
    | timeout =>
      simp only [scrape_url_get_html] at hc
      injection hc with hl
      injection hl with hp ht
      injection hp with hk hv
      exact Or.inl hv.symm
    | failure =>
      simp only [scrape_url_get_html] at hc
      injection hc with hl
      injection hl with hp ht
      injection hp with hk hv
      exact Or.inr hv.symm
  · exact fun h c heq => parse_error_code heq

theorem error_codes_by_stage_witness :
    (scrape_url_get_html ScrapeOutcome.timeout = PyResult.errDict [("Error", "Browser")] ∧
      ("Browser" = "Browser" ∨ "Browser" = "Unknown")) ∧
    (parse_to_json (Html.frag []) = [("Error", "Invalid HTML")] ∧
      ("Invalid HTML" = "Invalid HTML" ∨ "Invalid HTML" = "JSON Mapping" ∨
        "Invalid HTML" = "Exception")) :=
  ⟨⟨rfl, error_codes_by_stage.1 ScrapeOutcome.timeout "Browser" rfl⟩,
   ⟨rfl, error_codes_by_stage.2 (Html.frag []) "Invalid HTML" rfl⟩⟩

/-- C2: an error record from the Scraper is handed to the consumer directly
(the parse and beautify stages are skipped in `main`), and an error record
from the Extractor reaches the consumer with key and code unchanged — the
Normalizer maps it to itself, so the displayed record is the exact one. -/
theorem error_record_reaches_consumer_unchanged :
    (∀ (env : ScrapeOutcome) (e : List (String × String)) (now : Date),
      scrape_url_get_html env = PyResult.errDict e → main env now = strDict e) ∧
    (∀ (h : Html) (c : String) (now : Date),
      parse_to_json h = [("Error", c)] →
        beautify now (strDict [("Error", c)]) = strDict [("Error", c)] ∧
        main (ScrapeOutcome.success h) now = strDict [("Error", c)]) := by
  constructor
  · intro env e now hc
    cases env with
    | success h => exact absurd hc (by simp [scrape_url_get_html])
    | timeout =>
      have he : [("Error", "Browser")] = e := by simpa [scrape_url_get_html] using hc
      rw [← he]
      rfl
    | failure =>
      have he : [("Error", "Unknown")] = e := by simpa [scrape_url_get_html] using hc
      rw [← he]
      rfl
  · intro h c now hpc
    have hcode := parse_error_code hpc
    have hbeaut : beautify now (strDict [("Error", c)]) = strDict [("Error", c)] := by
      rcases hcode with rfl | rfl | rfl <;> rfl
    refine ⟨hbeaut, ?_⟩
    show beautify now (strDict (parse_to_json h)) = strDict [("Error", c)]
    rw [hpc, hbeaut]

theorem error_record_reaches_consumer_unchanged_witness :
    (scrape_url_get_html ScrapeOutcome.failure = PyResult.errDict [("Error", "Unknown")] ∧
      main ScrapeOutcome.failure ⟨2025, 12, 20⟩ = strDict [("Error", "Unknown")]) ∧
    (parse_to_json (Html.frag []) = [("Error", "Invalid HTML")] ∧
      main (ScrapeOutcome.success (Html.frag [])) ⟨2025, 12, 20⟩ =
        strDict [("Error", "Invalid HTML")]) :=
  ⟨⟨rfl, error_record_reaches_consumer_unchanged.1 ScrapeOutcome.failure
      [("Error", "Unknown")] ⟨2025, 12, 20⟩ rfl⟩,
   ⟨rfl, (error_record_reaches_consumer_unchanged.2 (Html.frag []) "Invalid HTML"
      ⟨2025, 12, 20⟩ rfl).2⟩⟩

/-- C3: the Normalizer builds a matching token's date with the current year,
and exactly when that date is more than 30 days before the current date it
rebuilds it with year+1; with current date 20 Dec 2025, "Saturday, 3rd JAN"
resolves to 3 Jan 2026 with offset 14 days (not approximately −351). -/
theorem year_rollover_correction :
    (∀ (now t0 t : Date), rolloverAdjust now t0 = Except.ok t →
      (dateDiff t0 now < -30 →
        t.year = now.year + 1 ∧ t.month = t0.month ∧ t.day = t0.day) ∧
      (¬dateDiff t0 now < -30 → t = t0)) ∧
    councilTarget 2025 "3" "JAN" = some ⟨2025, 1, 3⟩ ∧
    dateDiff ⟨2025, 1, 3⟩ ⟨2025, 12, 20⟩ = -351 ∧
    rolloverAdjust ⟨2025, 12, 20⟩ ⟨2025, 1, 3⟩ = Except.ok ⟨2026, 1, 3⟩ ∧
    dateDiff ⟨2026, 1, 3⟩ ⟨2025, 12, 20⟩ = 14 ∧
    beautifyValue ⟨2025, 12, 20⟩ "Saturday, 3rd JAN" = Except.ok "14 Days (Sat 3rd)" := by
  refine ⟨?_, by decide, by decide, by rfl, by decide, by rfl⟩
  intro now t0 t ht
  unfold rolloverAdjust at ht
  split at ht
  · rename_i hlt
    cases hmk : mkValidDate (now.year + 1) t0.month t0.day with
    | none => rw [hmk] at ht; cases ht
    | some t1 =>
      rw [hmk] at ht
      injection ht with ht1
      have ht2 := mkValidDate_eq hmk
      subst ht1
      subst ht2
      exact ⟨fun _ => ⟨rfl, rfl, rfl⟩, fun hn => absurd hlt hn⟩
  · rename_i hnlt
    injection ht with ht1
    subst ht1
    exact ⟨fun hlt => absurd hlt hnlt, fun _ => rfl⟩

theorem year_rollover_correction_witness :
    rolloverAdjust ⟨2025, 12, 20⟩ ⟨2025, 1, 3⟩ = Except.ok ⟨2026, 1, 3⟩ ∧
    dateDiff ⟨2025, 1, 3⟩ ⟨2025, 12, 20⟩ < -30 ∧
    (Date.mk 2026 1 3).year = (Date.mk 2025 12 20).year + 1 ∧
    (Date.mk 2026 1 3).month = (Date.mk 2025 1 3).month ∧
    (Date.mk 2026 1 3).day = (Date.mk 2025 1 3).day :=
  ⟨rfl, by decide,
   (year_rollover_correction.1 ⟨2025, 12, 20⟩ ⟨2025, 1, 3⟩ ⟨2026, 1, 3⟩ rfl).1 (by decide)⟩

/-- C4 counterexample: a located block carrying the known Rubbish marker but
no date element produces no entry, so `parse_to_json` returns
{"Error": "JSON Mapping"} even though a located block does match a known
category marker — refuting "JSON Mapping exactly when no block matches a
known marker". -/
theorem json_mapping_despite_known_marker :
    parse_to_json (Html.frag [⟨some "rubbish_collection_difs_black", none⟩]) =
      [("Error", "JSON Mapping")] ∧
    matchesKnownMarker ⟨some "rubbish_collection_difs_black", none⟩ = true := by
  decide

/-- C4 (amended): "Invalid HTML" exactly when zero blocks are located;
"JSON Mapping" exactly when blocks are located but none contributes an
entry, where a block contributes exactly when it has a recognized marker AND
a date element; when at least one block contributes, the accumulated
category record is returned. -/
theorem extractor_error_conditions (blocks : List Block) :
    (parse_to_json (Html.frag blocks) = [("Error", "Invalid HTML")] ↔ blocks = []) ∧
    (parse_to_json (Html.frag blocks) = [("Error", "JSON Mapping")] ↔
      blocks ≠ [] ∧ ∀ b ∈ blocks, blockContributes b = false) ∧
    ((∃ b ∈ blocks, blockContributes b = true) →
      parse_to_json (Html.frag blocks) = blocks.foldl processBlock []) := by
  by_cases hb0 : blocks = []
  · subst hb0
    refine ⟨⟨fun _ => rfl, fun _ => by decide⟩, ?_, ?_⟩
    · constructor
      · intro hfalse
        exact absurd hfalse (by decide)
      · rintro ⟨hne, -⟩
        exact absurd rfl hne
    · rintro ⟨b, hb, -⟩
      simp at hb
  · have hbe : blocks.isEmpty = false := isEmpty_false_of_ne_nil hb0
    by_cases hres : blocks.foldl processBlock [] = []
    · have hpar : parse_to_json (Html.frag blocks) = [("Error", "JSON Mapping")] := by
        simp only [parse_to_json, hbe, Bool.false_eq_true, if_false]
        rw [if_pos (by simp [hres])]
      refine ⟨?_, ?_, ?_⟩
      · rw [hpar]
        constructor
        · intro hf
          injection hf with h1
          injection h1 with hk hv
          exact absurd hv (by decide)
        · intro hf
          exact absurd hf hb0
      · rw [hpar]
        constructor
        · intro _
          refine ⟨hb0, fun b hb => ?_⟩
          by_contra hcb
          exact blocks_foldl_ne_nil_of_exists blocks []
            ⟨b, hb, by simpa using hcb⟩ hres
        · intro _
          rfl
      · intro hex
        exact absurd hres (blocks_foldl_ne_nil_of_exists blocks [] hex)
    · have hresne : blocks.foldl processBlock [] ≠ [] := hres
      have hpar : parse_to_json (Html.frag blocks) = blocks.foldl processBlock [] := by
        simp only [parse_to_json, hbe, Bool.false_eq_true, if_false]
        rw [if_neg (by simp [isEmpty_false_of_ne_nil hresne])]
      have hkeys : ∀ p ∈ blocks.foldl processBlock [], p.1 ∈ ["Rubbish", "Recycling", "Food"] := by
        intro p hp
        rcases mem_foldl_processBlock blocks [] p hp with h1 | h1
        · simp at h1
        · exact h1
      refine ⟨?_, ?_, fun _ => hpar⟩
      · rw [hpar]
        constructor
        · intro hf
          have hmem : ("Error", "Invalid HTML") ∈ blocks.foldl processBlock [] := by
            rw [hf]
            exact List.mem_cons_self _ _
          have := hkeys _ hmem
          simp at this
        · intro hf
          exact absurd hf hb0
      · rw [hpar]
        constructor
        · intro hf
          have hmem : ("Error", "JSON Mapping") ∈ blocks.foldl processBlock [] := by
            rw [hf]
            exact List.mem_cons_self _ _
          have := hkeys _ hmem
          simp at this
        · rintro ⟨-, hall⟩
          exact absurd (blocks_foldl_id blocks [] hall) hresne

theorem extractor_error_conditions_witness :
    (∃ b ∈ [(⟨some "rubbish_date_container_left rubbish_collection_difs_green",
        some "Saturday 17 January"⟩ : Block)], blockContributes b = true) ∧
    parse_to_json (Html.frag
      [⟨some "rubbish_date_container_left rubbish_collection_difs_green",
        some "Saturday 17 January"⟩]) =
      [(⟨some "rubbish_date_container_left rubbish_collection_difs_green",
        some "Saturday 17 January"⟩ : Block)].foldl processBlock [] :=
  ⟨⟨_, List.mem_cons_self _ _, by decide⟩,
   (extractor_error_conditions
     [⟨some "rubbish_date_container_left rubbish_collection_difs_green",
       some "Saturday 17 January"⟩]).2.2
     ⟨_, List.mem_cons_self _ _, by decide⟩⟩

/-- C5: for every Day in [1,31], the ordinal-suffix computation used by the
Extractor returns "th" on {11,12,13} and otherwise follows the mod-10 rule
{1: st, 2: nd, 3: rd, default: th}. -/
theorem ordinal_suffix_rule :
    ∀ d : Nat, d < 32 → 1 ≤ d →
      ordinalSuffix d =
        (if d = 11 ∨ d = 12 ∨ d = 13 then "th"
         else if d % 10 = 1 then "st"
         else if d % 10 = 2 then "nd"
         else if d % 10 = 3 then "rd"
         else "th") := by
  decide

theorem ordinal_suffix_rule_witness :
    (23 : Nat) < 32 ∧ (1 : Nat) ≤ 23 ∧
    ordinalSuffix 23 =
      (if (23 : Nat) = 11 ∨ (23 : Nat) = 12 ∨ (23 : Nat) = 13 then "th"
       else if (23 : Nat) % 10 = 1 then "st"
       else if (23 : Nat) % 10 = 2 then "nd"
       else if (23 : Nat) % 10 = 3 then "rd"
       else "th") :=
  ⟨by decide, by decide, ordinal_suffix_rule 23 (by decide) (by decide)⟩

/-- C6: a phrase "<Weekday> <Day> <Month>" with a real weekday name, Day in
1–31 and a full English month name is reformatted by
`format_collection_date` to "<Weekday>, <Day><Suffix> <MON>" with MON the
first three letters of Month uppercased; and a block with the Recycling
marker and date text "Saturday 17 January" yields
{"Recycling": "Saturday, 17th JAN"}. -/
theorem format_collection_date_canonical :
    (∀ wd ∈ weekdayNames, ∀ d : Nat, d < 32 → 1 ≤ d → ∀ mo ∈ monthFulls,
      format_collection_date (wd ++ " " ++ toString d ++ " " ++ mo) =
        wd ++ ", " ++ toString d ++ ordinalSuffix d ++ " " ++ pyUpper (strTake 3 mo)) ∧
    parse_to_json (Html.frag
      [⟨some "rubbish_date_container_left rubbish_collection_difs_green",
        some "Saturday 17 January"⟩]) = [("Recycling", "Saturday, 17th JAN")] := by
  constructor
  · decide
  · decide

theorem format_collection_date_canonical_witness :
    "Saturday" ∈ weekdayNames ∧ (17 : Nat) < 32 ∧ (1 : Nat) ≤ 17 ∧ "January" ∈ monthFulls ∧
    format_collection_date ("Saturday" ++ " " ++ toString (17 : Nat) ++ " " ++ "January") =
      "Saturday" ++ ", " ++ toString (17 : Nat) ++ ordinalSuffix 17 ++ " " ++
        pyUpper (strTake 3 "January") :=
  ⟨by decide, by decide, by decide, by decide,
   format_collection_date_canonical.1 "Saturday" (by decide) 17 (by decide) (by decide)
     "January" (by decide)⟩

/-- C7 counterexample: phrases violating the claim's grammar — day 99
outside 1–31, and "Zebruary" which is no English month name — are NOT
passed through unchanged: the code's regex accepts any 1–2 digit day and
any word as the month, and reformats such phrases. -/
theorem out_of_range_day_still_reformatted :
    format_collection_date "Saturday 99 January" = "Saturday, 99th JAN" ∧
    format_collection_date "Saturday 99 January" ≠ "Saturday 99 January" ∧
    format_collection_date "Saturday 17 Zebruary" = "Saturday, 17th ZEB" ∧
    format_collection_date "Saturday 17 Zebruary" ≠ "Saturday 17 Zebruary" := by
  decide

/-- C7 (amended): `format_collection_date` returns the phrase unmodified
(and never raises — it is total) exactly on the phrases its regex rejects;
the regex checks the weekday alternation and the digit/word shape, but not
the 1–31 day range nor the validity of the month name. -/
theorem format_collection_date_passthrough :
    ∀ raw : String, fcdMatch raw = none → format_collection_date raw = raw := by
  intro raw h
  unfold format_collection_date
  rw [h]

theorem format_collection_date_passthrough_witness :
    fcdMatch "next collection soon" = none ∧
    format_collection_date "next collection soon" = "next collection soon" :=
  ⟨by decide, format_collection_date_passthrough "next collection soon" (by decide)⟩

/-- C8 counterexample: "Monday, 6th January" and "Foo, 6th JAN" do not match
the CanonicalDateToken grammar and are not "today", yet the Normalizer
(current date 20 Dec 2025) rewrites them instead of returning them
unchanged: the code's council regex also matches non-canonical values —
any word in the weekday position, and a full month name in the MON
position — refuting the passthrough claim as stated. -/
theorem non_canonical_value_rewritten :
    isCanonicalDateToken "Monday, 6th January" = false ∧
    pyLower (pyStrip "Monday, 6th January") ≠ "today" ∧
    beautifyValue ⟨2025, 12, 20⟩ "Monday, 6th January" = Except.ok "17 Days (Mon 6th)" ∧
    "17 Days (Mon 6th)" ≠ "Monday, 6th January" ∧
    beautify ⟨2025, 12, 20⟩ (PyVal.dict [("Rubbish", PyVal.str "Monday, 6th January")]) =
      PyVal.dict [("Rubbish", PyVal.str "17 Days (Mon 6th)")] ∧
    isCanonicalDateToken "Foo, 6th JAN" = false ∧
    pyLower (pyStrip "Foo, 6th JAN") ≠ "today" ∧
    beautifyValue ⟨2025, 12, 20⟩ "Foo, 6th JAN" = Except.ok "17 Days (Foo 6th)" ∧
    "17 Days (Foo 6th)" ≠ "Foo, 6th JAN" := by
  refine ⟨by decide, by decide, by rfl, by decide, by rfl, by decide, by decide, by rfl,
    by decide⟩

/-- C8 (amended): the Normalizer's passthrough is keyed to the code's
council regex, which is strictly looser than the CanonicalDateToken
grammar: a string value whose stripped form the council regex does not
match anywhere, and which is not case-insensitively "today", is returned
unchanged (per value, and for a record containing it); in particular
"Today" and "Tomorrow" are mapped to themselves. Non-canonical values the
looser regex accepts may instead be rewritten. -/
theorem normalizer_passthrough :
    (∀ (now : Date) (v : String),
      councilSearch (pyStrip v).data = none → pyLower (pyStrip v) ≠ "today" →
        beautifyValue now v = Except.ok v ∧
        ∀ k : String,
          beautify now (PyVal.dict [(k, PyVal.str v)]) = PyVal.dict [(k, PyVal.str v)]) ∧
    (∀ now : Date,
      beautifyValue now "Today" = Except.ok "Today" ∧
      beautifyValue now "Tomorrow" = Except.ok "Tomorrow") := by
  constructor
  · intro now v h1 h2
    have hv : beautifyValue now v = Except.ok v := by
      simp only [beautifyValue]
      rw [if_neg (by simpa using h2), h1]
    refine ⟨hv, fun k => ?_⟩
    simp [beautify, beautifyEntries, transformVal, hv, Except.map]
  · exact fun now => ⟨rfl, rfl⟩

theorem normalizer_passthrough_witness :
    councilSearch (pyStrip "5 Days (Tue 6th)").data = none ∧
    pyLower (pyStrip "5 Days (Tue 6th)") ≠ "today" ∧
    beautifyValue ⟨2025, 12, 20⟩ "5 Days (Tue 6th)" = Except.ok "5 Days (Tue 6th)" :=
  ⟨by decide, by decide,
   (normalizer_passthrough.1 ⟨2025, 12, 20⟩ "5 Days (Tue 6th)" (by decide) (by decide)).1⟩

/-- C9: non-mapping input is returned unchanged by the Normalizer, and on a
mapping input whose processing raises internally (the model's
`Except.error`) the original input is returned — no partial result, and the
function is total, so it never raises outward. -/
theorem beautify_fallback_returns_input :
    (∀ (now : Date) (v : PyVal),
      (∀ entries, v ≠ PyVal.dict entries) → beautify now v = v) ∧
    (∀ (now : Date) (entries : List (String × PyVal)),
      beautifyEntries now entries = Except.error () →
        beautify now (PyVal.dict entries) = PyVal.dict entries) := by
  constructor
  · intro now v hv
    cases v with
    | dict entries => exact absurd rfl (hv entries)
    | str s => rfl
    | int n => rfl
    | pyNone => rfl
    | list xs => rfl
  · intro now entries h
    simp [beautify, h]

theorem beautify_fallback_returns_input_witness :
    beautify ⟨2024, 12, 20⟩ (PyVal.str "no collection") = PyVal.str "no collection" ∧
    beautifyEntries ⟨2024, 12, 20⟩ [("Food", PyVal.str "Thursday, 29th FEB")] =
      Except.error () ∧
    beautify ⟨2024, 12, 20⟩ (PyVal.dict [("Food", PyVal.str "Thursday, 29th FEB")]) =
      PyVal.dict [("Food", PyVal.str "Thursday, 29th FEB")] :=
  ⟨beautify_fallback_returns_input.1 ⟨2024, 12, 20⟩ (PyVal.str "no collection")
     (fun _ h => PyVal.noConfusion h),
   rfl,
   beautify_fallback_returns_input.2 ⟨2024, 12, 20⟩
     [("Food", PyVal.str "Thursday, 29th FEB")] rfl⟩

/-- C10: when the per-entry loop completes without an internal exception,
the output dict has exactly the input's keys, in order (none added, dropped
or renamed), and non-string values are carried over unchanged; the output is
a freshly built dict, the input value is untouched. -/
theorem beautify_preserves_keys :
    ∀ (now : Date) (entries out : List (String × PyVal)),
      beautifyEntries now entries = Except.ok out →
        out.map Prod.fst = entries.map Prod.fst ∧
        ∀ (k : String) (v : PyVal),
          (k, v) ∈ entries → (∀ s, v ≠ PyVal.str s) → (k, v) ∈ out := by
  intro now entries
  induction entries with
  | nil =>
    intro out h
    simp only [beautifyEntries] at h
    injection h with h1
    subst h1
    refine ⟨rfl, fun k v hv _ => ?_⟩
    simp at hv
  | cons e rest ih =>
    intro out h
    obtain ⟨k, v⟩ := e
    simp only [beautifyEntries] at h
    cases h1 : transformVal now v with
    | error err =>
      rw [h1] at h
      cases h
    | ok v' =>
      rw [h1] at h
      cases h2 : beautifyEntries now rest with
      | error err =>
        rw [h2] at h
        cases h
      | ok out' =>
        rw [h2] at h
        injection h with h3
        subst h3
        obtain ⟨ihm, ihmem⟩ := ih out' h2
        constructor
        · simp [ihm]
        · intro k0 v0 hmem hnotstr
          rcases List.mem_cons.mp hmem with heq | hmem'
          · injection heq with hk hv
            subst hk
            subst hv
            have hv' : v' = v0 := by
              cases v0 with
              | str s => exact absurd rfl (hnotstr s)
              | int n => simpa [transformVal] using h1.symm
              | pyNone => simpa [transformVal] using h1.symm
              | list xs => simpa [transformVal] using h1.symm
              | dict d => simpa [transformVal] using h1.symm
            rw [← hv']
            exact List.mem_cons_self _ _
          · exact List.mem_cons_of_mem _ (ihmem k0 v0 hmem' hnotstr)

theorem beautify_preserves_keys_witness :
    beautifyEntries ⟨2025, 12, 20⟩
      [("Rubbish", PyVal.str "Saturday, 3rd JAN"), ("count", PyVal.int 5)] =
      Except.ok [("Rubbish", PyVal.str "14 Days (Sat 3rd)"), ("count", PyVal.int 5)] ∧
    ([("Rubbish", PyVal.str "14 Days (Sat 3rd)"), ("count", PyVal.int 5)].map Prod.fst =
      [("Rubbish", PyVal.str "Saturday, 3rd JAN"), ("count", PyVal.int 5)].map Prod.fst) ∧
    ("count", PyVal.int 5) ∈
      [("Rubbish", PyVal.str "14 Days (Sat 3rd)"), ("count", PyVal.int 5)] :=
  ⟨rfl,
   (beautify_preserves_keys ⟨2025, 12, 20⟩
     [("Rubbish", PyVal.str "Saturday, 3rd JAN"), ("count", PyVal.int 5)]
     [("Rubbish", PyVal.str "14 Days (Sat 3rd)"), ("count", PyVal.int 5)] rfl).1,
   (beautify_preserves_keys ⟨2025, 12, 20⟩
     [("Rubbish", PyVal.str "Saturday, 3rd JAN"), ("count", PyVal.int 5)]
     [("Rubbish", PyVal.str "14 Days (Sat 3rd)"), ("count", PyVal.int 5)] rfl).2
     "count" (PyVal.int 5) (List.Mem.tail _ (List.Mem.head _))
     (fun _ h => PyVal.noConfusion h)⟩

end Waste
